import Mathlib

/-!
# Verification of the `web_crawler` repository

Shallow embedding of the repository's three source files:

* `crawler2.py` — `URLScraper` (bounded-concurrency fetcher): `scrape_url`,
  `scrape_multiple_urls`.
* `crawler.py` — `ContentCrawler` (HTML extractor and search-driven crawl
  orchestrator): `extract_internal_links`, `extract_content_from_url`,
  `crawl_related_content`.

Python text values (`str`) are modelled as `List Char` (a Python string is a
sequence of code points).  Network and parsing effects are modelled as
explicit input data: each fetch outcome is supplied by an environment
function, and the parsed HTML document (`BeautifulSoup` value) is an abstract
record of the texts and attributes the code reads from it.
-/

/-- Python strings are sequences of code points; we model them as `List Char`. -/
abbrev Str := List Char

/-- Convert a Lean string literal to the `List Char` model of a Python string. -/
def chars (s : String) : Str := s.data

/-- Model of Python `str.strip()`: drop leading and trailing whitespace. -/
def pyStrip (s : Str) : Str :=
  ((s.dropWhile Char.isWhitespace).reverse.dropWhile Char.isWhitespace).reverse

/-- Helper for `pySplit`: walk the characters, accumulating the current word
reversed in `cur`, emitting a word at each whitespace run boundary.  Models
the loop of Python `str.split()` with no separator argument. -/
def pySplitAux : List Char → List Char → List Str
  | [], cur => if cur.isEmpty then [] else [cur.reverse]
  | c :: rest, cur =>
    if c.isWhitespace then
      if cur.isEmpty then pySplitAux rest []
      else cur.reverse :: pySplitAux rest []
    else pySplitAux rest (c :: cur)

/-- Model of Python `str.split()` (no argument): split on runs of whitespace,
with no empty words and leading/trailing whitespace ignored. -/
def pySplit (s : Str) : List Str := pySplitAux s []

/-- Model of Python `' '.join(s.split())` from `crawler.py` line 145:
collapse all whitespace runs to single spaces and trim. -/
def normalizeText (s : Str) : Str := List.intercalate (chars " ") (pySplit s)

/-- Model of Python `str(n)` (decimal rendering of a nonnegative int). -/
def natStr (n : Nat) : Str := Nat.toDigits 10 n

/-! ## URL parsing (model of the `urllib.parse` collaborator)

`crawler.py` uses `urlparse` and `urljoin` from the standard library.  These
are external library functions; we model the fragment of their behaviour the
crawler exercises: splitting an absolute `scheme://host/path?query#fragment`
URL into its parts, and resolving an absolute, host-relative, or
path-relative reference against an absolute base URL. -/

/-- Split a character list at the first occurrence of `c`: returns the part
before it and, when `c` occurs, the part after it. -/
def splitFirst (c : Char) : Str → Str × Option Str
  | [] => ([], none)
  | x :: xs =>
    if x = c then ([], some xs)
    else
      let r := splitFirst c xs
      (x :: r.1, r.2)

/-- Split a character list at the first occurrence of the substring `sep`
(assumed nonempty): returns the parts before and after it, or `none` when
`sep` does not occur. -/
def breakOn (sep : Str) : Str → Option (Str × Str)
  | [] => none
  | x :: xs =>
    if sep.isPrefixOf (x :: xs) then some ([], (x :: xs).drop sep.length)
    else
      match breakOn sep xs with
      | some r => some (x :: r.1, r.2)
      | none => none

/-- The result of `urllib.parse.urlparse`: the components the crawler reads
(`scheme`, `netloc`, `path`, plus the discarded `query` and `fragment`). -/
structure URLParts where
  scheme : Str
  netloc : Str
  path : Str
  query : Str
  fragment : Str
deriving DecidableEq

/-- Model of `urllib.parse.urlparse` on the URL shapes the crawler meets:
strip the fragment after `#`, then the query after `?`; a URL containing
`://` splits into scheme, netloc (up to the next `/`) and path; anything
else is a relative reference with empty scheme and netloc. -/
def urlparse (u : Str) : URLParts :=
  let pf := splitFirst '#' u
  let pq := splitFirst '?' pf.1
  let query := pq.2.getD []
  let fragment := pf.2.getD []
  match breakOn (chars "://") pq.1 with
  | some r =>
    let ps := splitFirst '/' r.2
    match ps.2 with
    | some tail => ⟨r.1, ps.1, '/' :: tail, query, fragment⟩
    | none => ⟨r.1, r.2, [], query, fragment⟩
  | none => ⟨[], [], pq.1, query, fragment⟩

/-- The path up to and including its last `/` (the directory a relative
reference is resolved in); `/` when the path has no slash. -/
def dirname (p : Str) : Str :=
  let r := p.reverse.dropWhile (· ≠ '/')
  if r.isEmpty then chars "/" else r.reverse

/-- Model of `urllib.parse.urljoin base href` on the reference shapes the
crawler meets: an absolute reference (containing `://`) replaces the base; a
`//`-reference keeps only the base scheme; a `/`-reference keeps scheme and
host; an empty reference yields the base; any other reference is resolved in
the directory of the base path. -/
def urljoin (base href : Str) : Str :=
  if (breakOn (chars "://") href).isSome then href
  else
    let b := urlparse base
    if (chars "//").isPrefixOf href then b.scheme ++ chars ":" ++ href
    else if (chars "/").isPrefixOf href then
      b.scheme ++ chars "://" ++ b.netloc ++ href
    else if href.isEmpty then base
    else b.scheme ++ chars "://" ++ b.netloc ++ dirname b.path ++ href

/-- The canonical form `f"{scheme}://{netloc}{path}"` built at
`crawler.py` line 89: scheme + host + path, query and fragment dropped. -/
def clean_url_of (u : Str) : Str :=
  let p := urlparse u
  p.scheme ++ chars "://" ++ p.netloc ++ p.path

/-! ## `URLScraper` (`crawler2.py`)

The Firecrawl scrape of one URL is an external effect; its outcome for each
URL is supplied by an environment function `env`.  `asyncio.gather` with
`return_exceptions=True` collects the per-task dictionaries in task order
(and `scrape_url` catches every exception, so no exception objects appear).
Whether the surrounding `asyncio.wait_for` aggregate timeout of
`timeout * len(urls)` fires is a wall-clock fact, modelled as the boolean
input `aggregateTimeout`. -/

/-- Outcome of awaiting the Firecrawl scrape of one URL: a successful
response, an `asyncio.TimeoutError` from the per-URL `wait_for`, or any
other exception with its message. -/
inductive ScrapeOutcome where
  | ok (response : Str)
  | timeout
  | failure (msg : Str)
deriving DecidableEq

/-- One result dictionary of `URLScraper`.  Python builds plain dicts whose
key sets differ per branch, so the optional keys are `Option`: `content` is
absent (`none`) in the aggregate-timeout fallback dicts, and `error` is
absent in the success dict. -/
structure ScrapeResult where
  url : Str
  success : Bool
  content : Option Str
  error : Option Str
deriving DecidableEq

/-- The error message `f'Timeout after {timeout} seconds'` of
`crawler2.py` line 37. -/
def timeoutMsg (timeout : Nat) : Str :=
  chars "Timeout after " ++ natStr timeout ++ chars " seconds"

/-- Embedding of `URLScraper.scrape_url` (`crawler2.py` lines 10–46): await the scrape
under a per-URL timeout; success yields `{'url', 'success': True,
'content': response}`; a timeout yields a failed dict with empty content and
a timeout message; any other exception yields a failed dict with empty
content and the exception's message. -/
def scrape_url (url : Str) (timeout : Nat) (env : Str → ScrapeOutcome) :
    ScrapeResult :=
  match env url with
  | .ok response => ⟨url, true, some response, none⟩
  | .timeout => ⟨url, false, some [], some (timeoutMsg timeout)⟩
  | .failure msg => ⟨url, false, some [], some msg⟩

/-- Embedding of `URLScraper.scrape_multiple_urls` (`crawler2.py` lines 48–66): gather
one `scrape_url` task per URL (bounded by a semaphore of size
`max_concurrent`, which affects scheduling only, not the value returned);
if the aggregate `wait_for` of `timeout * len(urls)` fires, return instead
one fallback dict `{'url', 'success': False, 'error': 'Overall operation
timeout'}` per URL — these fallback dicts carry no `content` key. -/
def scrape_multiple_urls (urls : List Str) (timeout : Nat)
    (max_concurrent : Nat) (env : Str → ScrapeOutcome)
    (aggregateTimeout : Bool) : List ScrapeResult :=
  let _ := max_concurrent
  if aggregateTimeout then
    urls.map fun url =>
      ⟨url, false, none, some (chars "Overall operation timeout")⟩
  else
    urls.map fun url => scrape_url url timeout env

/-! ## `ContentCrawler` (`crawler.py`)

The HTTP fetch and the BeautifulSoup parse are external effects.  The
combined outcome of `session.get` + `raise_for_status` + parsing is modelled
by `FetchParse`: a `requests.RequestException` with its message, any other
(parse-time) exception with its message, or a parsed document.  A parsed
document (`Soup`) records exactly the values the code reads from the soup
after `script`/`style` elements have been decomposed: the `<title>` text,
the text of the first matching content selector, the `<body>` text, the
`content` attribute of the description meta tag, and the `href` attributes
of the `<a href=...>` elements in document order. -/

/-- The parsed-document values `extract_content_from_url` reads from
BeautifulSoup (after `script`/`style` removal).  `selectorText` is the
`get_text(separator=' ', strip=True)` of the first element matched by the
content-selector list (`article`, `main`, `[role="main"]`, `.content`, …),
`none` when no selector matches; `bodyText` likewise for the `<body>` tag;
`metaDescription` is `none` when there is no `<meta name="description">`
tag, otherwise its `content` attribute (defaulting to empty). -/
structure Soup where
  titleTag : Option Str
  selectorText : Option Str
  bodyText : Option Str
  metaDescription : Option Str
  anchors : List Str

/-- Outcome of fetching and parsing one URL inside
`extract_content_from_url`'s `try` block: a
`requests.exceptions.RequestException` (network/HTTP failure), any other
exception (parse-time failure), or a parsed document. -/
inductive FetchParse where
  | requestError (detail : Str)
  | parseError (detail : Str)
  | parsed (soup : Soup)

/-- The result dictionary of `extract_content_from_url`.  The two error
branches build dicts without an `internal_links_count` key, so that field is
an `Option`. -/
structure ExtractResult where
  title : Str
  content : Str
  description : Str
  url : Str
  word_count : Nat
  status : Str
  internal_links : List Str
  internal_links_count : Option Nat

/-- The skip condition of `crawler.py` line 82, applied to an
already-stripped `href`: empty, fragment-only (`#...`), `mailto:` or `tel:`
targets are skipped. -/
def skipHref (h : Str) : Bool :=
  h.isEmpty || (chars "#").isPrefixOf h ||
    (chars "mailto:").isPrefixOf h || (chars "tel:").isPrefixOf h

/-- Loop body of `ContentCrawler.extract_internal_links`
(`crawler.py` lines 79–94), with the accumulating set modelled as a
duplicate-free list in insertion order: strip each `href`; skip it when
empty or starting with `#`, `mailto:` or `tel:`; resolve it against
`base_url`; keep it only when its host equals `base_domain`; canonicalize to
scheme+host+path; insert unless it equals `base_url` or is already present;
stop (`break`) as soon as the set has reached `max_links` elements. -/
def extract_links_go (base_url base_domain : Str) (max_links : Nat) :
    List Str → List Str → List Str
  | [], acc => acc
  | href :: rest, acc =>
    let h := pyStrip href
    if skipHref h then
      extract_links_go base_url base_domain max_links rest acc
    else
      let p := urlparse (urljoin base_url h)
      if p.netloc = base_domain then
        let clean := p.scheme ++ chars "://" ++ p.netloc ++ p.path
        if clean ≠ base_url ∧ clean ∉ acc then
          let acc2 := acc ++ [clean]
          if max_links ≤ acc2.length then acc2
          else extract_links_go base_url base_domain max_links rest acc2
        else extract_links_go base_url base_domain max_links rest acc
      else extract_links_go base_url base_domain max_links rest acc

/-- Embedding of `ContentCrawler.extract_internal_links` (`crawler.py` lines 64–96):
run the anchor loop against the host of `base_url`, starting from the empty
set. -/
def extract_internal_links (anchors : List Str) (base_url : Str)
    (max_links : Nat := 10) : List Str :=
  extract_links_go base_url (urlparse base_url).netloc max_links anchors []

/-- The body text selected by `extract_content_from_url`
(`crawler.py` lines 129–139): the first matching content selector's text;
when that is empty (or no selector matched), the `<body>` text; when there
is no `<body>` either, the empty string. -/
def bodyTextOf (soup : Soup) : Str :=
  let ct := soup.selectorText.getD []
  if ct.isEmpty then soup.bodyText.getD [] else ct

/-- Embedding of `ContentCrawler.extract_content_from_url`
(`crawler.py` lines 98–192).
A network failure returns the empty-field dict with status
`error: <detail>`; any other exception returns it with status
`parsing error: <detail>`; otherwise the parsed document yields the title
(or the `No title found` sentinel), the whitespace-normalized body text
truncated to 5000 characters, the meta description, the word count of the
full normalized text, status `success`, and the internal links.  (The
`encode('utf-8', errors='ignore').decode('utf-8')` step is the identity on
a well-formed code-point sequence and is modelled as such.) -/
def extract_content_from_url (url : Str) (outcome : FetchParse) :
    ExtractResult :=
  match outcome with
  | .requestError d =>
    ⟨[], [], [], url, 0, chars "error: " ++ d, [], none⟩
  | .parseError d =>
    ⟨[], [], [], url, 0, chars "parsing error: " ++ d, [], none⟩
  | .parsed soup =>
    let title_text :=
      match soup.titleTag with
      | some t => pyStrip t
      | none => chars "No title found"
    let content_text := normalizeText (bodyTextOf soup)
    let links := extract_internal_links soup.anchors url 10
    ⟨title_text, content_text.take 5000, soup.metaDescription.getD [], url,
      (pySplit content_text).length, chars "success", links,
      some links.length⟩

/-! ## Orchestrator (`crawl_related_content`) -/

/-- One entry of the search response's `organic` list.  The code reads each
field with `result.get(key, default)`, so every field is optional. -/
structure OrganicEntry where
  link : Option Str
  title : Option Str
  snippet : Option Str
  position : Option Nat

/-- A wall-clock time as read by `time.strftime`. -/
structure Timestamp where
  year : Nat
  month : Nat
  day : Nat
  hour : Nat
  minute : Nat
  second : Nat

/-- Model of `time.strftime('%Y-%m-%d %H:%M:%S')`: render the six numeric
fields around the literal separators. -/
def formatTimestamp (t : Timestamp) : Str :=
  natStr t.year ++ chars "-" ++ natStr t.month ++ chars "-" ++
    natStr t.day ++ chars " " ++ natStr t.hour ++ chars ":" ++
    natStr t.minute ++ chars ":" ++ natStr t.second

/-- The per-hit dictionary built at `crawler.py` lines 220–225:
`{url, title, snippet, position}` read from an organic entry with `.get`
defaults. -/
structure UrlInfo where
  url : Str
  title : Str
  snippet : Str
  position : Nat

/-- One merged record appended by `crawl_related_content`
(`crawler.py` lines 235–241): the extraction dict spread together with the
search metadata and the capture timestamp. -/
structure CrawledRecord where
  page : ExtractResult
  search_title : Str
  search_snippet : Str
  search_position : Nat
  crawled_at : Str

/-- Embedding of `ContentCrawler.crawl_related_content`
(`crawler.py` lines 194–249).
The search collaborator's reply is the input `searchResponse`: `none` models
both a failed search (`search_related_topics` returns `{}`, which is falsy)
and a reply without an `'organic'` key — the code returns `[]` for both.
Otherwise the first `max_results` organic entries are projected to
`{url, title, snippet, position}` with `.get` defaults and processed
strictly sequentially (the inter-request `time.sleep(delay)` affects timing
only); hit `i` is extracted under the fetch environment `env` and merged
with its search metadata and the timestamp `clock i` read at that
iteration. -/
def crawl_related_content (searchResponse : Option (List OrganicEntry))
    (max_results : Nat) (env : Str → FetchParse) (clock : Nat → Timestamp) :
    List CrawledRecord :=
  match searchResponse with
  | none => []
  | some organic =>
    let urls_to_crawl : List UrlInfo := (organic.take max_results).map fun r =>
      ⟨r.link.getD [], r.title.getD [], r.snippet.getD [], r.position.getD 0⟩
    urls_to_crawl.enum.map fun p =>
      ⟨extract_content_from_url p.2.url (env p.2.url), p.2.title,
        p.2.snippet, p.2.position, formatTimestamp (clock p.1)⟩

/-! ## Concrete scenario data -/

/-- The fetch environment of the C6 scenario: `https://slow.example` never
responds within the per-URL timeout, every other URL succeeds. -/
def scenarioEnv : Str → ScrapeOutcome := fun u =>
  if u = chars "https://slow.example" then ScrapeOutcome.timeout
  else ScrapeOutcome.ok (chars "page content")

/-- A two-hit search response (ranks 1 and 2), as in the C8 scenario. -/
def demoOrganic : List OrganicEntry :=
  [⟨some (chars "https://a.example"), some (chars "A"),
      some (chars "about A"), some 1⟩,
   ⟨some (chars "https://b.example"), some (chars "B"),
      some (chars "about B"), some 2⟩]

/-- A fetch environment in which every page fetch fails at the network
layer. -/
def demoFetchEnv : Str → FetchParse :=
  fun _ => FetchParse.requestError (chars "connection refused")

/-- A constant wall clock. -/
def demoClock : Nat → Timestamp := fun _ => ⟨2026, 10, 12, 0, 0, 0⟩

/-- A body text of 5000 non-whitespace characters followed by a second
word: long enough that the `[:5000]` truncation drops the second word. -/
def bigText : Str := List.replicate 5000 'a' ++ [' ', 'b']

/-- A parsed page whose sole content is `bigText`. -/
def bigSoup : Soup := ⟨none, some bigText, none, none, []⟩

/-! ## Helper lemmas -/

/-- The `url` field of a `scrape_url` result is always the input URL. -/
theorem scrape_url_url (url : Str) (timeout : Nat)
    (env : Str → ScrapeOutcome) : (scrape_url url timeout env).url = url := by
  unfold scrape_url
  cases env url <;> rfl

/-! ## Claims about `URLScraper` -/

/-- C1: `scrape_multiple_urls` returns exactly `len(urls)` results, the
result at index `i` describing `urls[i]` (its `url` field is `urls[i]`, so
mapping the `url` projection over the output recovers the input list), for
every fetch environment and also when the aggregate timeout fires. -/
theorem C1_fetchMany_one_result_per_url (urls : List Str)
    (timeout max_concurrent : Nat) (env : Str → ScrapeOutcome)
    (aggregateTimeout : Bool) :
    (scrape_multiple_urls urls timeout max_concurrent env
        aggregateTimeout).length = urls.length ∧
    (scrape_multiple_urls urls timeout max_concurrent env
        aggregateTimeout).map ScrapeResult.url = urls := by
  constructor
  · unfold scrape_multiple_urls
    split <;> simp
  · unfold scrape_multiple_urls
    split <;> simp [scrape_url_url, List.map_map, Function.comp_def]

/-- C2 counterexample: when the aggregate timeout fires on the one-URL batch
`["https://a.com"]`, the fallback record does have `url`, a failed success
flag and the `Overall operation timeout` error, but it carries **no**
content field at all (`content = none`, i.e. the Python dict has no
`'content'` key), contradicting the claim that each record carries
extracted content (possibly empty). -/
theorem C2_counterexample :
    scrape_multiple_urls [chars "https://a.com"] 30 3
        (fun _ => ScrapeOutcome.timeout) true =
      [⟨chars "https://a.com", false, none,
        some (chars "Overall operation timeout")⟩] ∧
    (scrape_multiple_urls [chars "https://a.com"] 30 3
        (fun _ => ScrapeOutcome.timeout) true).map ScrapeResult.content ≠
      [some (chars "")] := by
  constructor
  · rfl
  · decide

/-- C2 (amended): when the aggregate timeout fires, `scrape_multiple_urls`
returns one record per input URL, order-aligned with the input, each with
`success = false` and error `Overall operation timeout` — and with no
content field (`content = none`). -/
theorem C2_aggregate_timeout_fallback (urls : List Str)
    (timeout max_concurrent : Nat) (env : Str → ScrapeOutcome) :
    (scrape_multiple_urls urls timeout max_concurrent env true).length
        = urls.length ∧
    (scrape_multiple_urls urls timeout max_concurrent env true).map
        ScrapeResult.url = urls ∧
    (scrape_multiple_urls urls timeout max_concurrent env true).map
        ScrapeResult.success = List.replicate urls.length false ∧
    (scrape_multiple_urls urls timeout max_concurrent env true).map
        ScrapeResult.error =
      List.replicate urls.length (some (chars "Overall operation timeout")) ∧
    (scrape_multiple_urls urls timeout max_concurrent env true).map
        ScrapeResult.content = List.replicate urls.length none := by
  unfold scrape_multiple_urls
  simp [List.map_map, Function.comp_def, List.eq_replicate_iff, List.mem_map]

/-- C6: when the fetch of `url` exceeds the per-URL timeout,
`scrape_url` returns a record with `success = false`, empty content and the
timeout-specific error message (which contains `Timeout`); and a batch run
without aggregate timeout is exactly the list of independent per-URL
`scrape_url` results, so one URL timing out does not disturb any sibling
fetch. -/
theorem C6_per_url_timeout (url : Str) (timeout max_concurrent : Nat)
    (env : Str → ScrapeOutcome) (urls : List Str)
    (h : env url = ScrapeOutcome.timeout) :
    (scrape_url url timeout env =
        ⟨url, false, some (chars ""), some (timeoutMsg timeout)⟩ ∧
      chars "Timeout" <+: timeoutMsg timeout) ∧
    scrape_multiple_urls urls timeout max_concurrent env false =
      urls.map fun u => scrape_url u timeout env := by
  refine ⟨⟨?_, ?_⟩, ?_⟩
  · simp [scrape_url, h, chars]
  · have h1 : chars "Timeout" <+: chars "Timeout after " := by decide
    exact h1.trans ((List.prefix_append _ _).trans (List.prefix_append _ _))
  · simp [scrape_multiple_urls]

/-- C6 witness: the spec's scenario
`fetchMany(["https://good.example", "https://slow.example"], perUrlTimeout=1,
maxConcurrent=2)` with the slow host timing out. -/
theorem C6_per_url_timeout_witness :
    (scrape_url (chars "https://slow.example") 1 scenarioEnv =
        ⟨chars "https://slow.example", false, some (chars ""),
          some (timeoutMsg 1)⟩ ∧
      chars "Timeout" <+: timeoutMsg 1) ∧
    scrape_multiple_urls [chars "https://good.example",
        chars "https://slow.example"] 1 2 scenarioEnv false =
      [chars "https://good.example", chars "https://slow.example"].map
        fun u => scrape_url u 1 scenarioEnv :=
  C6_per_url_timeout (chars "https://slow.example") 1 2 scenarioEnv
    [chars "https://good.example", chars "https://slow.example"] (by decide)

/-! ## Claims about the HTML extractor -/

/-- C4: `extract_content_from_url` is a total function (no exception
escapes); a network (transport) failure yields the empty-field record with
`word_count = 0` and status `error: <detail>`; any parse-time exception
yields the same empty shape with status `parsing error: <detail>`; and the
two status strings differ whatever the details are. -/
theorem C4_extract_error_taxonomy :
    (∀ url d, extract_content_from_url url (FetchParse.requestError d) =
      ⟨chars "", chars "", chars "", url, 0, chars "error: " ++ d, [],
        none⟩) ∧
    (∀ url d, extract_content_from_url url (FetchParse.parseError d) =
      ⟨chars "", chars "", chars "", url, 0, chars "parsing error: " ++ d,
        [], none⟩) ∧
    (∀ d1 d2 : Str,
      chars "error: " ++ d1 ≠ chars "parsing error: " ++ d2) := by
  refine ⟨fun url d => rfl, fun url d => rfl, fun d1 d2 h => ?_⟩
  have h2 : 'e' :: (chars "rror: " ++ d1) =
      'p' :: (chars "arsing error: " ++ d2) := h
  exact absurd (List.cons.injEq _ _ _ _ ▸ h2).1 (by decide)

/-- C7: the `content` field of every extraction result has length at most
5000 characters — the error shapes are empty and the success shape is a hard
`[:5000]` truncation. -/
theorem C7_content_capped (url : Str) (outcome : FetchParse) :
    (extract_content_from_url url outcome).content.length ≤ 5000 := by
  cases outcome with
  | requestError d => simp [extract_content_from_url, chars]
  | parseError d => simp [extract_content_from_url, chars]
  | parsed soup =>
    simp only [extract_content_from_url, List.length_take]
    exact min_le_left _ _

/-- C9: a failed search (the collaborator's `{}` reply) or a payload missing
the `'organic'` key — both modelled by `searchResponse = none` — makes
`crawl_related_content` return the empty list. -/
theorem C9_missing_organic_empty (max_results : Nat)
    (env : Str → FetchParse) (clock : Nat → Timestamp) :
    crawl_related_content none max_results env clock = [] := rfl

/-- Loop invariant of `extract_internal_links`: starting strictly below the
cap from a set not containing `base_url`, the loop never exceeds the cap and
never inserts `base_url` itself (the code compares each canonical link
against the raw `base_url` string before inserting). -/
theorem extract_links_go_bound (base_url base_domain : Str)
    (max_links : Nat) (rest : List Str) :
    ∀ acc : List Str, acc.length < max_links → base_url ∉ acc →
      (extract_links_go base_url base_domain max_links rest acc).length ≤
          max_links ∧
      base_url ∉ extract_links_go base_url base_domain max_links rest acc := by
  induction rest with
  | nil =>
    intro acc hlen hmem
    exact ⟨le_of_lt hlen, hmem⟩
  | cons href rest ih =>
    intro acc hlen hmem
    simp only [extract_links_go]
    split
    · exact ih acc hlen hmem
    · split
      · split
        · rename_i hcond
          have hmem2 : base_url ∉ acc ++
              [(urlparse (urljoin base_url (pyStrip href))).scheme ++
                chars "://" ++
                (urlparse (urljoin base_url (pyStrip href))).netloc ++
                (urlparse (urljoin base_url (pyStrip href))).path] := by
            simp only [List.mem_append, List.mem_singleton]
            push_neg
            exact ⟨hmem, fun heq => hcond.1 heq.symm⟩
          have hlen2 : (acc ++
              [(urlparse (urljoin base_url (pyStrip href))).scheme ++
                chars "://" ++
                (urlparse (urljoin base_url (pyStrip href))).netloc ++
                (urlparse (urljoin base_url (pyStrip href))).path]).length =
              acc.length + 1 := by simp
          split
          · rename_i hstop
            exact ⟨by omega, hmem2⟩
          · rename_i hstop
            exact ih _ (by omega) hmem2
        · exact ih acc hlen hmem
      · exact ih acc hlen hmem

/-- C3 counterexample: a page at `https://site.com/page?q=1` containing the
anchor `/page` yields an internal-links list containing
`https://site.com/page`, which is exactly the page's own canonicalized URL
(scheme+host+path): the code's self-link check compares against the raw URL
including its query string, not against the canonical form. -/
theorem C3_counterexample :
    clean_url_of (chars "https://site.com/page?q=1") ∈
      extract_internal_links [chars "/page"]
        (chars "https://site.com/page?q=1") 10 := by decide

/-- C3 (amended): for every page and every cap of at least one link, the
internal-links list has length at most the cap and contains no element equal
to the page's URL exactly as given (the raw `base_url` string, not its
canonicalization). -/
theorem C3_cap_and_no_raw_self (anchors : List Str) (base_url : Str)
    (max_links : Nat) (h : 1 ≤ max_links) :
    (extract_internal_links anchors base_url max_links).length ≤ max_links ∧
    base_url ∉ extract_internal_links anchors base_url max_links :=
  extract_links_go_bound base_url (urlparse base_url).netloc max_links
    anchors [] (by simpa using h) (by simp)

/-- C3 witness: the amended claim evaluated on a concrete page. -/
theorem C3_cap_and_no_raw_self_witness :
    (extract_internal_links [chars "/about"] (chars "https://site.com")
        10).length ≤ 10 ∧
    chars "https://site.com" ∉
      extract_internal_links [chars "/about"] (chars "https://site.com") 10 :=
  C3_cap_and_no_raw_self [chars "/about"] (chars "https://site.com") 10
    (by decide)

/-- Soundness invariant of the anchor loop: starting from a duplicate-free
set, the output is duplicate-free, and every output element either was
already present or is the canonicalization of some anchor of the remaining
input that was not skipped and whose resolved host equals `base_domain`. -/
theorem extract_links_go_sound (base_url base_domain : Str)
    (max_links : Nat) (rest : List Str) :
    ∀ acc : List Str, acc.Nodup →
      (extract_links_go base_url base_domain max_links rest acc).Nodup ∧
      ∀ l ∈ extract_links_go base_url base_domain max_links rest acc,
        l ∈ acc ∨ ∃ href ∈ rest, skipHref (pyStrip href) = false ∧
          (urlparse (urljoin base_url (pyStrip href))).netloc = base_domain ∧
          l = clean_url_of (urljoin base_url (pyStrip href)) := by
  induction rest with
  | nil =>
    intro acc hnd
    exact ⟨hnd, fun l hl => Or.inl hl⟩
  | cons href rest ih =>
    intro acc hnd
    simp only [extract_links_go]
    split
    · rename_i hskip
      refine ⟨(ih acc hnd).1, fun l hl => ?_⟩
      rcases (ih acc hnd).2 l hl with h | ⟨a, ha, hs⟩
      · exact Or.inl h
      · exact Or.inr ⟨a, List.mem_cons_of_mem _ ha, hs⟩
    · rename_i hskip
      have hskipf : skipHref (pyStrip href) = false :=
        Bool.not_eq_true _ ▸ eq_false_of_ne_true hskip
      split
      · rename_i hdom
        split
        · rename_i hcond
          have hnd2 : (acc ++
              [(urlparse (urljoin base_url (pyStrip href))).scheme ++
                chars "://" ++
                (urlparse (urljoin base_url (pyStrip href))).netloc ++
                (urlparse (urljoin base_url (pyStrip href))).path]).Nodup := by
            rw [List.nodup_append]
            exact ⟨hnd, List.nodup_singleton _,
              fun a ha hb => hcond.2 ((List.mem_singleton.mp hb) ▸ ha)⟩
          have hcover : ∀ l, l ∈ acc ++
              [(urlparse (urljoin base_url (pyStrip href))).scheme ++
                chars "://" ++
                (urlparse (urljoin base_url (pyStrip href))).netloc ++
                (urlparse (urljoin base_url (pyStrip href))).path] →
              l ∈ acc ∨ ∃ a ∈ href :: rest, skipHref (pyStrip a) = false ∧
                (urlparse (urljoin base_url (pyStrip a))).netloc =
                  base_domain ∧
                l = clean_url_of (urljoin base_url (pyStrip a)) := by
            intro l hl
            rcases List.mem_append.mp hl with h | h
            · exact Or.inl h
            · exact Or.inr ⟨href, List.mem_cons_self _ _,
                hskipf, hdom, List.mem_singleton.mp h⟩
          split
          · exact ⟨hnd2, hcover⟩
          · refine ⟨(ih _ hnd2).1, fun l hl => ?_⟩
            rcases (ih _ hnd2).2 l hl with h | ⟨a, ha, hs⟩
            · exact hcover l h
            · exact Or.inr ⟨a, List.mem_cons_of_mem _ ha, hs⟩
        · refine ⟨(ih acc hnd).1, fun l hl => ?_⟩
          rcases (ih acc hnd).2 l hl with h | ⟨a, ha, hs⟩
          · exact Or.inl h
          · exact Or.inr ⟨a, List.mem_cons_of_mem _ ha, hs⟩
      · refine ⟨(ih acc hnd).1, fun l hl => ?_⟩
        rcases (ih acc hnd).2 l hl with h | ⟨a, ha, hs⟩
        · exact Or.inl h
        · exact Or.inr ⟨a, List.mem_cons_of_mem _ ha, hs⟩

/-- C5: every returned internal link comes from an anchor that survived the
skip rules (non-empty, not `#...`, not `mailto:`, not `tel:` after
stripping), resolves against the page URL to the page's own host, and is
reported in canonical scheme+host+path form; the returned list never holds a
duplicate; and the spec's scenario page on host `site.com` with anchors
`#section`, `mailto:x@y.com` and `/about` yields exactly
`["https://site.com/about"]`. -/
theorem C5_skip_resolve_filter_dedup :
    (∀ (anchors : List Str) (base_url : Str) (max_links : Nat),
      (extract_internal_links anchors base_url max_links).Nodup ∧
      ∀ l ∈ extract_internal_links anchors base_url max_links,
        ∃ href ∈ anchors, skipHref (pyStrip href) = false ∧
          (urlparse (urljoin base_url (pyStrip href))).netloc =
            (urlparse base_url).netloc ∧
          l = clean_url_of (urljoin base_url (pyStrip href))) ∧
    extract_internal_links
        [chars "#section", chars "mailto:x@y.com", chars "/about"]
        (chars "https://site.com") 10 = [chars "https://site.com/about"] := by
  constructor
  · intro anchors base_url max_links
    have h := extract_links_go_sound base_url (urlparse base_url).netloc
      max_links anchors [] List.nodup_nil
    exact ⟨h.1, fun l hl => (h.2 l hl).resolve_left (by simp)⟩
  · decide

/-- A `strftime`-formatted timestamp is never the empty string (it always
contains its literal separators). -/
theorem formatTimestamp_ne_nil (t : Timestamp) : formatTimestamp t ≠ [] := by
  intro h
  simp [formatTimestamp, chars, List.append_eq_nil] at h

/-! ## Claims about the orchestrator -/

/-- C8: on a search response carrying an `organic` list,
`crawl_related_content` returns exactly one merged record per selected hit —
`min max_results (number of hits)` of them, index-aligned with the hits, so
rank order is preserved — and the record of the hit at index `i` (selected
because `i < max_results`) carries the hit's rank as `search_position`, the
hit's search title and snippet, the extraction of the hit's URL, and a
non-empty `crawled_at` timestamp. -/
theorem C8_rank_order_merge (organic : List OrganicEntry)
    (max_results : Nat) (env : Str → FetchParse) (clock : Nat → Timestamp) :
    (crawl_related_content (some organic) max_results env clock).length =
      min max_results organic.length ∧
    ∀ i e p, organic.get? i = some e → i < max_results →
      e.position = some p →
      ∃ r, (crawl_related_content (some organic) max_results env
          clock).get? i = some r ∧
        r.search_position = p ∧
        r.search_title = e.title.getD [] ∧
        r.search_snippet = e.snippet.getD [] ∧
        r.page = extract_content_from_url (e.link.getD [])
          (env (e.link.getD [])) ∧
        r.crawled_at ≠ [] := by
  constructor
  · simp [crawl_related_content, List.enum_length]
  · intro i e p hget hlt hpos
    refine ⟨⟨extract_content_from_url (e.link.getD [])
        (env (e.link.getD [])), e.title.getD [], e.snippet.getD [], p,
        formatTimestamp (clock i)⟩, ?_, rfl, rfl, rfl, rfl,
        formatTimestamp_ne_nil _⟩
    simp only [crawl_related_content, List.get?_map, List.get?_enum,
      List.get?_take hlt, hget, Option.map_some', hpos, Option.getD_some]

/-- C8 witness: the two-hit scenario, evaluated at the rank-1 hit. -/
theorem C8_rank_order_merge_witness :
    ∃ r, (crawl_related_content (some demoOrganic) 2 demoFetchEnv
        demoClock).get? 0 = some r ∧
      r.search_position = 1 ∧
      r.search_title = (some (chars "A")).getD [] ∧
      r.search_snippet = (some (chars "about A")).getD [] ∧
      r.page = extract_content_from_url
        ((some (chars "https://a.example")).getD [])
        (demoFetchEnv ((some (chars "https://a.example")).getD [])) ∧
      r.crawled_at ≠ [] :=
  (C8_rank_order_merge demoOrganic 2 demoFetchEnv demoClock).2 0
    ⟨some (chars "https://a.example"), some (chars "A"),
      some (chars "about A"), some 1⟩ 1 rfl (by decide) rfl

/-! ## Word count before truncation (C10) -/

/-- Running the split over a block of `n` copies of `'a'` just moves the
block into the current-word accumulator. -/
theorem pySplitAux_replicate (n : Nat) (l cur : List Char) :
    pySplitAux (List.replicate n 'a' ++ l) cur =
      pySplitAux l (List.replicate n 'a' ++ cur) := by
  induction n generalizing cur with
  | zero => rw [List.replicate_zero, List.nil_append, List.nil_append]
  | succ n ih =>
    rw [List.replicate_succ, List.cons_append]
    have hw : ('a').isWhitespace = false := by decide
    rw [show pySplitAux ('a' :: (List.replicate n 'a' ++ l)) cur =
        pySplitAux (List.replicate n 'a' ++ l) ('a' :: cur) from by
      simp only [pySplitAux, hw, Bool.false_eq_true, if_false]]
    have step : List.replicate n 'a' ++ 'a' :: cur =
        'a' :: (List.replicate n 'a' ++ cur) := by
      rw [← List.cons_append, ← List.replicate_succ, List.replicate_succ',
        List.append_assoc, List.singleton_append]
    rw [ih ('a' :: cur), step, List.cons_append]

/-- A nonempty all-`'a'` text splits into the single word it is. -/
theorem pySplit_replicate (n : Nat) (h : 0 < n) :
    pySplit (List.replicate n 'a') = [List.replicate n 'a'] := by
  have h0 : pySplit (List.replicate n 'a') =
      pySplitAux (List.replicate n 'a' ++ []) [] := by
    rw [List.append_nil]; rfl
  rw [h0, pySplitAux_replicate, List.append_nil]
  cases n with
  | zero => omega
  | succ m =>
    rw [List.replicate_succ]
    simp only [pySplitAux, List.isEmpty_cons, Bool.false_eq_true, if_false]
    rw [← List.replicate_succ, List.reverse_replicate]

/-- Splitting the two-word text `aa…a b` (with `n > 0` copies of `a`). -/
theorem pySplit_big (n : Nat) (h : 0 < n) :
    pySplit (List.replicate n 'a' ++ [' ', 'b']) =
      [List.replicate n 'a', ['b']] := by
  have h0 : pySplit (List.replicate n 'a' ++ [' ', 'b']) =
      pySplitAux (List.replicate n 'a' ++ [' ', 'b']) [] := rfl
  rw [h0, pySplitAux_replicate, List.append_nil]
  have hw : (' ').isWhitespace = true := by decide
  have hb : ('b').isWhitespace = false := by decide
  have hne : (List.replicate n 'a').isEmpty = false := by
    cases n with
    | zero => omega
    | succ m => rw [List.replicate_succ]; rfl
  show pySplitAux (' ' :: ['b']) (List.replicate n 'a') = _
  simp only [pySplitAux, hw, hb, hne, if_true, if_false, Bool.false_eq_true,
    List.isEmpty_nil, List.isEmpty_cons, List.reverse_replicate,
    List.reverse_cons, List.reverse_nil, List.nil_append]

/-- Joining the two split words with single spaces reproduces the text. -/
theorem normalizeText_big (n : Nat) (h : 0 < n) :
    normalizeText (List.replicate n 'a' ++ [' ', 'b']) =
      List.replicate n 'a' ++ [' ', 'b'] := by
  unfold normalizeText
  rw [pySplit_big n h]
  show List.intercalate [' '] [List.replicate n 'a', ['b']] = _
  rw [List.intercalate]
  simp only [List.intersperse, List.flatten, List.append_nil,
    List.singleton_append, List.cons_append, List.nil_append]

/-- The 5000-character truncation of `bigText` keeps only the first word. -/
theorem take_bigText : bigText.take 5000 = List.replicate 5000 'a' := by
  unfold bigText
  exact List.take_left' (List.length_replicate 5000 'a')

/-- The selected body text of `bigSoup` is `bigText`. -/
theorem bodyTextOf_bigSoup : bodyTextOf bigSoup = bigText := by
  unfold bodyTextOf bigSoup
  have hne : bigText.isEmpty = false := by
    unfold bigText
    cases List.replicate 5000 'a' with
    | nil => rfl
    | cons x xs => rfl
  simp only [Option.getD_some, hne, Bool.false_eq_true, if_false]

/-- C10: in every successful extraction, `word_count` is the number of
whitespace-separated words of the full normalized body text, while `content`
is that same text truncated to 5000 characters — so on a page whose
normalized text exceeds 5000 characters the `word_count` exceeds the number
of words present in the returned `content`. -/
theorem C10_word_count_before_truncation :
    (∀ url soup,
      (extract_content_from_url url (FetchParse.parsed soup)).word_count =
        (pySplit (normalizeText (bodyTextOf soup))).length ∧
      (extract_content_from_url url (FetchParse.parsed soup)).content =
        (normalizeText (bodyTextOf soup)).take 5000) ∧
    ∃ url soup,
      (pySplit (extract_content_from_url url
          (FetchParse.parsed soup)).content).length <
        (extract_content_from_url url (FetchParse.parsed soup)).word_count := by
  constructor
  · exact fun url soup => ⟨rfl, rfl⟩
  · refine ⟨chars "https://long.example", bigSoup, ?_⟩
    have hcg : ∀ url soup, (extract_content_from_url url
        (FetchParse.parsed soup)).content =
        (normalizeText (bodyTextOf soup)).take 5000 := fun _ _ => rfl
    have hwg : ∀ url soup, (extract_content_from_url url
        (FetchParse.parsed soup)).word_count =
        (pySplit (normalizeText (bodyTextOf soup))).length := fun _ _ => rfl
    rw [hcg, hwg, bodyTextOf_bigSoup]
    have hnorm : normalizeText bigText = bigText := by
      unfold bigText
      exact normalizeText_big 5000 (by omega)
    rw [hnorm, take_bigText]
    have h1 : pySplit (List.replicate 5000 'a') =
        [List.replicate 5000 'a'] := pySplit_replicate 5000 (by omega)
    have h2 : pySplit bigText = [List.replicate 5000 'a', ['b']] := by
      unfold bigText
      exact pySplit_big 5000 (by omega)
    rw [h1, h2]
    simp only [List.length_cons, List.length_nil]
    omega
